import Mathlib

/-! Verification of the incremental build orchestrator of `f4pga/flows/flow.py`
(the `Flow` class, its resolution planner and execution driver, and the
Path-Set helper functions `p_req_exists`, `p_dep_differ` and
`p_update_dep_statuses`), via a shallow embedding in Lean. -/

set_option autoImplicit false

namespace F4PGA

/-- A Python value standing for an artifact's Path-Set as the helpers see it:
a single path string, an ordered list, a name-keyed mapping, or a value of
any other runtime type (`other`, covering e.g. `None` or an integer nested
inside a structure). -/
inductive PathVal where
  | str (s : String)
  | list (ps : List PathVal)
  | dict (ps : List (String × PathVal))
  | other
deriving Repr

/-- Python truthiness of a Path-Set value: empty strings, lists and dicts are
falsy; any other object of these types is truthy, as is a generic object. -/
def truthyV : PathVal → Bool
  | .str s => !(s == "")
  | .list ps => !ps.isEmpty
  | .dict ps => !ps.isEmpty
  | .other => true

/-- Python truthiness of an optional value (`None` is falsy). -/
def truthyO : Option PathVal → Bool
  | none => false
  | some v => truthyV v

/-- First-match lookup in an association list, the behaviour of `dict.get`
on a dict whose insertion order is the list order. -/
def lookupA {κ α : Type} [DecidableEq κ] : List (κ × α) → κ → Option α
  | [], _ => none
  | (k', v) :: rest, k => if k' = k then some v else lookupA rest k

/-- Dict item assignment `d[k] = v`: replace the first binding of `k` in
place, or append a new binding. -/
def setA {κ α : Type} [DecidableEq κ] : List (κ × α) → κ → α → List (κ × α)
  | [], k, v => [(k, v)]
  | (k', v') :: rest, k, v =>
    if k' = k then (k, v) :: rest else (k', v') :: setA rest k v

/-- Dict `d.update(other)`: assign every binding of `other` in order. -/
def updateA {κ α : Type} [DecidableEq κ] (m other : List (κ × α)) : List (κ × α) :=
  other.foldl (fun acc kv => setA acc kv.1 kv.2) m

/-- Dict `d.pop(k)` minus the KeyError handling: drop the bindings of `k`. -/
def eraseA {κ α : Type} [DecidableEq κ] (m : List (κ × α)) (k : κ) : List (κ × α) :=
  m.filter (fun kv => !(kv.1 = k))

mutual
/-- `p_req_exists(r)`: whether a dependency exists on disk, recursing
through lists; any other type raises (`none`).  `disk` is the set of
existing files backing `Path(r).exists()`. -/
def p_req_exists (disk : List String) : PathVal → Option Bool
  | .str r => some (decide (r ∈ disk))
  | .list ps => reqExistsList disk ps
  | .dict _ => none
  | .other => none

/-- `p_req_exists` on a list: `not (False in map(p_req_exists, r))`.  The
`in` test consumes the lazy `map` only until the first `False`, so an
element that would raise is never reached once some earlier element was
reported missing; a raised exception (`none`) before that propagates. -/
def reqExistsList (disk : List String) : List PathVal → Option Bool
  | [] => some true
  | p :: ps =>
    match p_req_exists disk p with
    | none => none
    | some false => some false
    | some true => reqExistsList disk ps
end

mutual
/-- `p_dep_differ(paths, consumer, f4cache)`: whether a dependency differs
from its last version; a missing file counts as differing, and a value of
any unexpected type reaches the trailing `return False`.  `getStatus`
stands for `f4cache.get_status`. -/
def p_dep_differ (disk : List String) (getStatus : String → String → String) :
    PathVal → String → Bool
  | .str s, c => if !(decide (s ∈ disk)) then true else !(getStatus s c == "same")
  | .list ps, c => depDifferList disk getStatus ps c
  | .dict ps, c => depDifferDict disk getStatus ps c
  | .other, _ => false

/-- `True in [p_dep_differ(p, ...) for p in paths]` over a list. -/
def depDifferList (disk : List String) (getStatus : String → String → String) :
    List PathVal → String → Bool
  | [], _ => false
  | p :: ps, c => p_dep_differ disk getStatus p c || depDifferList disk getStatus ps c

/-- `True in [p_dep_differ(p, ...) for _, p in paths.items()]` over a dict. -/
def depDifferDict (disk : List String) (getStatus : String → String → String) :
    List (String × PathVal) → String → Bool
  | [], _ => false
  | (_, p) :: ps, c => p_dep_differ disk getStatus p c || depDifferDict disk getStatus ps c
end

/-- `p_update_dep_statuses(paths, consumer, f4cache)`: record a new staleness
baseline.  A single path calls `f4cache.update` (modelled by the pure
outcome `upd` plus the recorded `(path, consumer)` event); a list or dict is
traversed by a `for` loop whose body is `return recurse(first)`, so only the
first member is processed; an empty list or dict, or a value of any other
type, falls through to `fatal` (`none`). -/
def p_update_dep_statuses (upd : String → String → Bool) :
    PathVal → String → Option (Bool × List (String × String))
  | .str s, c => some (upd s c, [(s, c)])
  | .list [], _ => none
  | .list (p :: _), c => p_update_dep_statuses upd p c
  | .dict [], _ => none
  | .dict ((_, p) :: _), c => p_update_dep_statuses upd p c
  | .other, _ => none

/-- A dependency spec of a stage: an artifact name together with its
requirement kind string (`"req"`, `"demand"`, or another kind treated as
optional). -/
structure DepSpec where
  name : String
  spec : String
deriving Repr, DecidableEq

/-- A stage as the orchestrator sees it: its name and its declared takes
and produces.  The per-stage mutable `value_overrides` dict lives in the
flow state, keyed by the stage's name. -/
structure Stage where
  name : String
  takes : List DepSpec
  produces : List DepSpec
deriving Repr, DecidableEq

/-- The output names a stage declares. -/
def stageOuts (s : Stage) : List String := s.produces.map (fun d => d.name)

/-- The calling context handed to a stage module's `map`/`exec` entry
points by `Flow._config_mod_runctx` (the shared directory constants are
dropped as irrelevant). -/
structure ModRunCtx where
  takes : List (String × PathVal)
  produces : List (String × PathVal)
  values : List (String × PathVal)
deriving Repr

/-- The external collaborators of the orchestrator: the staleness cache's
`get_status`/`update` (plus whether a cache instance exists at all), the
module `map`/`exec` entry points keyed by the owning stage's name (`exec`
is visible only through its effect on the disk), the flow configuration's
dependency overrides and per-stage values. -/
structure Env where
  cacheEnabled : Bool
  getStatus : String → String → String
  update : String → String → Bool
  moduleMap : String → ModRunCtx → List (String × Option PathVal)
  execEffect : String → ModRunCtx → List String → List String
  overrides : List (String × Option PathVal)
  values : String → List (String × PathVal)

/-- The mutable state of one `Flow` instance, together with the disk and
the event traces of its calls into the collaborators: `msgs` records
`sfprint` diagnostics, `cacheProc` the files registered with the cache via
`_cache_deps`, `cacheUpd` the `(path, consumer)` baselines recorded via
`p_update_dep_statuses`, and `execs` the stages actually executed. -/
structure FlowState where
  disk : List String
  dep_paths : List (String × Option PathVal)
  run_stages : List String
  deps_rebuilds : List (String × Nat)
  os_map : List (String × Stage)
  stages_checked : List String
  value_overrides : List ((String × String) × Option PathVal)
  skip_warns : List String
  msgs : List String
  cacheProc : List String
  cacheUpd : List (String × String)
  execs : List String
deriving Repr

/-- `self.dep_paths.get(dep)`: `None` both for a missing key and for a
stored `None` value. -/
def getDep (m : List (String × Option PathVal)) (k : String) : Option PathVal :=
  (lookupA m k).bind id

/-- `set.add` on `run_stages`. -/
def addRun (st : FlowState) (n : String) : FlowState :=
  if n ∈ st.run_stages then st else { st with run_stages := st.run_stages ++ [n] }

/-- `set.add` on `stages_checked`. -/
def addChecked (st : FlowState) (n : String) : FlowState :=
  if n ∈ st.stages_checked then st
  else { st with stages_checked := st.stages_checked ++ [n] }

/-- Append an `sfprint` diagnostic. -/
def pushMsg (st : FlowState) (m : String) : FlowState :=
  { st with msgs := st.msgs ++ [m] }

/-- `stage.value_overrides[key] = v` for the stage named `stage`. -/
def setVO (st : FlowState) (stage key : String) (v : Option PathVal) : FlowState :=
  { st with value_overrides := setA st.value_overrides (stage, key) v }

mutual
/-- Modelled trace of the external `deep` combinator of
`f4pga.flows.common` as used by `Flow._cache_deps`: the leaf path strings
of a Path-Set, in traversal order (non-path leaves contribute nothing). -/
def deepPaths : PathVal → List String
  | .str s => [s]
  | .list ps => deepPathsList ps
  | .dict ps => deepPathsDict ps
  | .other => []

/-- `deepPaths` over the members of a list. -/
def deepPathsList : List PathVal → List String
  | [] => []
  | p :: ps => deepPaths p ++ deepPathsList ps

/-- `deepPaths` over the values of a dict. -/
def deepPathsDict : List (String × PathVal) → List String
  | [] => []
  | (_, p) :: ps => deepPaths p ++ deepPathsDict ps
end

/-- The duplicate-provider configuration error message raised by
`Flow.__init__`. -/
def dupMsg (output first second : String) : String :=
  "Dependency `" ++ output ++ "` is generated by stage `" ++ first ++
    "` and `" ++ second ++ "`. Dependencies can have only one provider at most."

/-- One inner iteration of the `os_map` construction loop: claim each
output of `stage`, inserting when the name is unclaimed and raising the
duplicate-provider error when it is already claimed by a different stage. -/
def claimOuts (stage : Stage) : List DepSpec → List (String × Stage) →
    Except String (List (String × Stage))
  | [], m => .ok m
  | o :: os, m =>
    match lookupA m o.name with
    | none => claimOuts stage os (m ++ [(o.name, stage)])
    | some s =>
      if s = stage then claimOuts stage os m
      else .error (dupMsg o.name s.name stage.name)

/-- The outer `for stage in cfg.stages.values()` loop of the `os_map`
construction. -/
def buildOsMapAux : List Stage → List (String × Stage) →
    Except String (List (String × Stage))
  | [], m => .ok m
  | s :: ss, m =>
    match claimOuts s s.produces m with
    | .error e => .error e
    | .ok m' => buildOsMapAux ss m'

/-- The Output-Provider Index (`os_map`) built by `Flow.__init__` from the
configured stage list. -/
def buildOsMap (stages : List Stage) : Except String (List (String × Stage)) :=
  buildOsMapAux stages []

/-- The `dep_paths` seeding comprehension of `Flow.__init__`:
keep every override whose value is not `None` and whose Path-Set exists on
disk; `p_req_exists` raising inside the comprehension (`none`) aborts
construction. -/
def seedDepPaths (disk : List String) : List (String × Option PathVal) →
    Option (List (String × Option PathVal))
  | [] => some []
  | (n, p) :: rest =>
    match p with
    | none => seedDepPaths disk rest
    | some v =>
      match p_req_exists disk v with
      | none => none
      | some true => (seedDepPaths disk rest).map (fun m => (n, some v) :: m)
      | some false => seedDepPaths disk rest

/-- `Flow._config_mod_runctx`: collect the truthy resolved take paths, and
for each produce the `dep_paths` entry when truthy, else the override
(`config_paths`) entry when truthy. -/
def configModRunctx (stage : Stage) (values : List (String × PathVal))
    (dep_paths config_paths : List (String × Option PathVal)) : ModRunCtx :=
  let takes := stage.takes.foldl
    (fun acc take =>
      match getDep dep_paths take.name with
      | some v => if truthyV v then setA acc take.name v else acc
      | none => acc) []
  let produces := stage.produces.foldl
    (fun acc prod =>
      if truthyO (getDep dep_paths prod.name) then
        match getDep dep_paths prod.name with
        | some v => setA acc prod.name v
        | none => acc
      else if truthyO (getDep config_paths prod.name) then
        match getDep config_paths prod.name with
        | some v => setA acc prod.name v
        | none => acc
      else acc) []
  { takes := takes, produces := produces, values := values }

/-- `Flow._dep_will_differ`: with caching disabled the answer is always
`True`; otherwise a provider already flagged to run forces `True`, else the
cache is consulted through `p_dep_differ`. -/
def dep_will_differ (env : Env) (st : FlowState) (dep : String) (paths : PathVal)
    (consumer : String) : Bool :=
  if !env.cacheEnabled then true
  else
    match lookupA st.os_map dep with
    | some provider =>
      if provider.name ∈ st.run_stages then true
      else p_dep_differ st.disk env.getStatus paths consumer
    | none => p_dep_differ st.disk env.getStatus paths consumer

/-- The `will_differ` chain of `Flow._resolve_dependencies` for one take:
an absent (`None`) take does not differ; a present take existing on disk
asks `_dep_will_differ`; a present take missing on disk always differs.
`none` is a raised exception from `p_req_exists`. -/
def takeWillDiffer (env : Env) (st : FlowState) (take : DepSpec)
    (tp : Option PathVal) (provider : Stage) : Option Bool :=
  match tp with
  | none => some false
  | some v =>
    match p_req_exists st.disk v with
    | none => none
    | some true => some (dep_will_differ env st take.name v provider.name)
    | some false => some true

/-- The diagnostic printed when a provider stage is unreachable. -/
def unreachableMsg (stage take : String) : String :=
  "Stage `" ++ stage ++ "` is unreachable due to unmet dependency `" ++ take ++ "`"

/-- The once-per-artifact diagnostic naming the input that causes a rebuild. -/
def rebuildMsg (take stage : String) : String :=
  take ++ " is causing rebuild for `" ++ stage ++ "`"

/-- The deduplicated rebuild warning: print and remember the artifact only
when it was not warned about before. -/
def warnOnce (st : FlowState) (take stage : String) : FlowState :=
  if take ∈ st.skip_warns then st
  else { st with msgs := st.msgs ++ [rebuildMsg take stage],
                 skip_warns := st.skip_warns ++ [take] }

/-- Outcome of the takes loop of `Flow._resolve_dependencies`: fall through
to the module mapping, the early `return` of an unreachable provider, or a
fatal error / uncaught exception. -/
inductive RTRes where
  | done (st : FlowState)
  | stop (st : FlowState)
  | fatal
deriving Repr

/-- The `for take in provider.takes` loop of `Flow._resolve_dependencies`:
recursively resolve the take (`recur`), inject the resolved Path-Set into
the provider's value overrides, `return` when a required take has no
truthy Path-Set, otherwise flag the provider and count the rebuild when
the take will differ. -/
def resolveTakes (recur : String → FlowState → Option FlowState) (env : Env)
    (provider : Stage) : List DepSpec → FlowState → RTRes
  | [], st => .done st
  | take :: ts, st =>
    match recur take.name st with
    | none => .fatal
    | some st1 =>
      let tp := getDep st1.dep_paths take.name
      let st2 := setVO st1 provider.name (":" ++ take.name) tp
      if !truthyO tp && take.spec == "req" then
        .stop (pushMsg st2 (unreachableMsg provider.name take.name))
      else
        match takeWillDiffer env st2 take tp provider with
        | none => .fatal
        | some wd =>
          if wd then
            let st3 := addRun (warnOnce st2 take.name provider.name) provider.name
            match lookupA st3.deps_rebuilds take.name with
            | none => .fatal
            | some n =>
              resolveTakes recur env provider ts
                { st3 with deps_rebuilds := setA st3.deps_rebuilds take.name (n + 1) }
          else resolveTakes recur env provider ts st2

/-- The loop over the dry-run outputs that registers every already-existing
output with the cache (`p_req_exists` is evaluated before the cache test
and may raise). -/
def cacheOutputs (env : Env) : List (String × Option PathVal) → FlowState →
    Option FlowState
  | [], st => some st
  | (_, v) :: rest, st =>
    match v with
    | none => cacheOutputs env rest st
    | some pv =>
      match p_req_exists st.disk pv with
      | none => none
      | some b =>
        cacheOutputs env rest
          (if b && env.cacheEnabled then
            { st with cacheProc := st.cacheProc ++ deepPaths pv }
          else st)

/-- The loop over the dry-run outputs that flags the provider into
`run_stages` for every output whose Path-Set does not yet exist on disk. -/
def flagMissing : List (String × Option PathVal) → String → FlowState →
    Option FlowState
  | [], _, st => some st
  | (_, v) :: rest, pname, st =>
    match v with
    | none => flagMissing rest pname st
    | some pv =>
      match p_req_exists st.disk pv with
      | none => none
      | some b => flagMissing rest pname (if !b then addRun st pname else st)

/-- The `o_path` tail of each produce-verification iteration: inject the
mapped output Path-Set into the provider's value overrides when it is not
`None`. -/
def voValueStep (provider : Stage) (outputs : List (String × Option PathVal))
    (o : DepSpec) (st : FlowState) : FlowState :=
  match getDep outputs o.name with
  | some v => setVO st provider.name (":" ++ o.name) (some v)
  | none => st

/-- The produce-verification loop of `Flow._resolve_dependencies`: a
declared produce absent from the dry-run mapping is fatal when required, or
when on-demand with an external override; otherwise its entry is popped
from `os_map` (a `KeyError` on the pop is an uncaught exception, `none`). -/
def verifyOuts (env : Env) (provider : Stage)
    (outputs : List (String × Option PathVal)) :
    List DepSpec → FlowState → Option FlowState
  | [], st => some st
  | o :: os, st =>
    if (lookupA outputs o.name).isNone then
      if o.spec == "req" || (o.spec == "demand" && (lookupA env.overrides o.name).isSome) then
        none
      else
        match lookupA st.os_map o.name with
        | none => none
        | some _ =>
          verifyOuts env provider outputs os
            (voValueStep provider outputs o { st with os_map := eraseA st.os_map o.name })
    else verifyOuts env provider outputs os (voValueStep provider outputs o st)

/-- The `deps_rebuilds` initialisation at the top of
`Flow._resolve_dependencies`. -/
def initRebuild (st : FlowState) (dep : String) : FlowState :=
  match lookupA st.deps_rebuilds dep with
  | none => { st with deps_rebuilds := st.deps_rebuilds ++ [(dep, 0)] }
  | some _ => st

/-- `Flow._resolve_dependencies(dep, stages_checked)`, the Dependency
Resolution Planner, with a fuel bound on the recursion depth (`none` is a
fatal error, an uncaught exception, or fuel exhaustion). -/
def resolveDeps (env : Env) : Nat → String → FlowState → Option FlowState
  | 0, _, _ => none
  | fuel + 1, dep, st =>
    let st0 := initRebuild st dep
    let paths := getDep st0.dep_paths dep
    if truthyO paths && (lookupA st0.os_map dep).isNone then some st0
    else
      match lookupA st0.os_map dep with
      | none => some st0
      | some provider =>
        if provider.name ∈ st0.stages_checked then some st0
        else
          match resolveTakes (resolveDeps env fuel) env provider provider.takes st0 with
          | .fatal => none
          | .stop st1 => some st1
          | .done st1 =>
            let ctx := configModRunctx provider (env.values provider.name)
              st1.dep_paths env.overrides
            let outputs := env.moduleMap provider.name ctx
            match cacheOutputs env outputs st1 with
            | none => none
            | some st2 =>
              let st3 := addChecked st2 provider.name
              let st4 := { st3 with dep_paths := updateA st3.dep_paths outputs }
              match flagMissing outputs provider.name st4 with
              | none => none
              | some st5 => verifyOuts env provider outputs provider.produces st5

/-- Outcome of `Flow.__init__`: the duplicate-provider exception, some
other fatal error or uncaught exception, or a constructed flow. -/
inductive InitRes where
  | dupProvider (msg : String)
  | crashed
  | ok (st : FlowState)
deriving Repr

/-- `Flow.__init__(target, cfg, f4cache)`: build the Output-Provider Index,
seed the existing explicit overrides into `dep_paths`, register the seeded
paths with the cache, and run one resolution pass for the target. -/
def flowInit (env : Env) (disk : List String) (fuel : Nat) (target : String)
    (stages : List Stage) : InitRes :=
  match buildOsMap stages with
  | .error e => .dupProvider e
  | .ok osm =>
    match seedDepPaths disk env.overrides with
    | none => .crashed
    | some seeded =>
      let cacheProc0 :=
        if env.cacheEnabled then
          seeded.foldl (fun acc kv =>
            match kv.2 with
            | some v => acc ++ deepPaths v
            | none => acc) []
        else []
      let st0 : FlowState :=
        { disk := disk, dep_paths := seeded, run_stages := [],
          deps_rebuilds := [], os_map := osm, stages_checked := [],
          value_overrides := [], skip_warns := [], msgs := [],
          cacheProc := cacheProc0, cacheUpd := [], execs := [] }
      match resolveDeps env fuel target st0 with
      | none => .crashed
      | some st => .ok st

/-- `p_update_dep_statuses` applied to a stored `dep_paths` value: a stored
`None` is of neither path type and falls through to `fatal`. -/
def updateDepStatusesO (upd : String → String → Bool) :
    Option PathVal → String → Option (Bool × List (String × String))
  | some v, c => p_update_dep_statuses upd v c
  | none, _ => none

/-- An abnormal exit of `Flow._build_dep`: the
`DependencyNotProducedException` carrying the missing dependency and its
provider stage, or any other uncaught exception / fatal error (failed
asserts, `KeyError`, `p_req_exists` on a bad type, `fatal`). -/
inductive BErr where
  | notProduced (dep : String) (provider : String)
  | crash
deriving Repr, DecidableEq

/-- Outcome of `Flow._build_dep`: a returned boolean with the resulting
state, or an abnormal exit. -/
inductive BRes where
  | ret (b : Bool) (st : FlowState)
  | err (e : BErr)
deriving Repr

/-- Outcome of the takes loop of `Flow._build_dep`: fall through carrying
the accumulated `any_dep_differ` flag, or a propagated abnormal exit. -/
inductive TRes where
  | tdone (differ : Bool) (st : FlowState)
  | terr (e : BErr)
deriving Repr

/-- The `for p_dep in provider.takes` loop of `Flow._build_dep`: build each
take (`recur`); a failed build of a required take fails the
`assert p_dep.spec != "req"` (crash) while a failed optional take is
skipped; with a cache, each built take's staleness baseline is recorded and
its differ outcome is ORed into `any_dep_differ`. -/
def buildTakes (recur : String → FlowState → BRes) (env : Env) (provider : Stage) :
    List DepSpec → Bool → FlowState → TRes
  | [], acc, st => .tdone acc st
  | t :: ts, acc, st =>
    match recur t.name st with
    | .err e => .terr e
    | .ret rb st1 =>
      if rb then
        if env.cacheEnabled then
          match lookupA st1.dep_paths t.name with
          | none => .terr .crash
          | some vOpt =>
            match updateDepStatusesO env.update vOpt provider.name with
            | none => .terr .crash
            | some (d, evs) =>
              buildTakes recur env provider ts (acc || d)
                { st1 with cacheUpd := st1.cacheUpd ++ evs }
        else buildTakes recur env provider ts acc st1
      else
        if t.spec == "req" then .terr .crash
        else buildTakes recur env provider ts acc st1

/-- The produce loop after `module_exec` in `Flow._build_dep`.  Note that
it tests `p_req_exists(paths)` — the Path-Set of the dependency being
built — for every required product, and raises
`DependencyNotProducedException(dep, provider.name)`, never consulting the
product's own Path-Set; the product's paths are only fetched
(`KeyError` when absent) and registered with the cache. -/
def checkProduces (env : Env) (dep : String) (paths : PathVal) (provider : Stage) :
    List DepSpec → FlowState → BRes
  | [], st => .ret true st
  | prod :: ps, st =>
    let raised : Option BRes :=
      if prod.spec == "req" then
        match p_req_exists st.disk paths with
        | none => some (.err .crash)
        | some false => some (.err (.notProduced dep provider.name))
        | some true => none
      else none
    match raised with
    | some r => r
    | none =>
      match lookupA st.dep_paths prod.name with
      | none => .err .crash
      | some prodPaths =>
        if prodPaths.isSome then
          match p_req_exists st.disk paths with
          | none => .err .crash
          | some b =>
            checkProduces env dep paths provider ps
              (if b && env.cacheEnabled then
                { st with cacheProc := st.cacheProc ++
                    (match prodPaths with | some v => deepPaths v | none => []) }
              else st)
        else checkProduces env dep paths provider ps st

/-- The diagnostic printed when `Flow._build_dep` finds no Path-Set. -/
def unresolvedMsg (dep : String) : String :=
  "Dependency " ++ dep ++ " is unresolved."

/-- The diagnostic printed when `Flow._build_dep` skips a rebuild. -/
def skipMsg (dep : String) : String :=
  "Skipping rebuild of `" ++ dep ++ "` because all of it's dependencies remained unchanged"

/-- `Flow._build_dep(dep)`, the Execution Driver, with a fuel bound on the
recursion depth (fuel exhaustion is a crash).  An unresolved dependency
returns `False`; an up-to-date dependency whose provider need not run
returns `True`; otherwise the provider's takes are built, the late
short-circuit may skip the stage, and else the module is executed and its
promised produces checked. -/
def buildDep (env : Env) : Nat → String → FlowState → BRes
  | 0, _, _ => .err .crash
  | fuel + 1, dep, st =>
    let pathsO := getDep st.dep_paths dep
    if !truthyO pathsO then .ret false (pushMsg st (unresolvedMsg dep))
    else
      match pathsO with
      | none => .err .crash
      | some paths =>
        let providerO := lookupA st.os_map dep
        let run := match providerO with
          | some p => decide (p.name ∈ st.run_stages)
          | none => false
        match p_req_exists st.disk paths with
        | none => .err .crash
        | some ex =>
          if ex && !run then .ret true st
          else
            match providerO with
            | none => .err .crash
            | some provider =>
              let initAcc := if env.cacheEnabled then false else true
              match buildTakes (buildDep env fuel) env provider provider.takes initAcc st with
              | .terr e => .err e
              | .tdone anyDiffer st1 =>
                match p_req_exists st1.disk paths with
                | none => .err .crash
                | some ex2 =>
                  if !anyDiffer && ex2 then .ret true (pushMsg st1 (skipMsg dep))
                  else
                    let ctx := configModRunctx provider (env.values provider.name)
                      st1.dep_paths env.overrides
                    let st2 := { st1 with
                      disk := env.execEffect provider.name ctx st1.disk,
                      execs := st1.execs ++ [provider.name] }
                    let st3 := { st2 with
                      run_stages := st2.run_stages.filter (fun n => !(n = provider.name)) }
                    checkProduces env dep paths provider provider.produces st3

/-- A trivial environment: caching disabled, inert collaborators. -/
def envTriv : Env :=
  { cacheEnabled := false, getStatus := fun _ _ => "same",
    update := fun _ _ => false, moduleMap := fun _ _ => [],
    execEffect := fun _ _ d => d, overrides := [], values := fun _ => [] }

/-- Stage `A`, producing `x` (fixture). -/
def stA : Stage := { name := "A", takes := [], produces := [⟨"x", "req"⟩] }

/-- Stage `B`, also producing `x` (fixture). -/
def stB : Stage := { name := "B", takes := [], produces := [⟨"x", "req"⟩] }

/-- Stage `C`, declaring its output `z` twice in its own produces
(fixture). -/
def stC : Stage := { name := "C", takes := [], produces := [⟨"z", "maybe"⟩, ⟨"z", "maybe"⟩] }

/-- An empty flow state (fixture). -/
def stEmpty : FlowState :=
  { disk := [], dep_paths := [], run_stages := [], deps_rebuilds := [],
    os_map := [], stages_checked := [], value_overrides := [], skip_warns := [],
    msgs := [], cacheProc := [], cacheUpd := [], execs := [] }

/-- Stage `S`, promising the two required outputs `a` and `b` (fixture). -/
def stS : Stage := { name := "S", takes := [], produces := [⟨"a", "req"⟩, ⟨"b", "req"⟩] }

/-- Environment whose module execution creates only `a.out`, caching
disabled (fixture). -/
def env1 : Env := { envTriv with execEffect := fun _ _ d => "a.out" :: d }

/-- Flow state about to build `a`: both outputs of `S` resolved to paths,
`S` flagged to run, nothing on disk (fixture). -/
def st1c : FlowState :=
  { stEmpty with
    dep_paths := [("a", some (.str "a.out")), ("b", some (.str "b.out"))],
    run_stages := ["S"], os_map := [("a", stS), ("b", stS)] }

/-- The state `_build_dep` returns in the fixture of `st1c`: `S` executed,
only `a.out` on disk (fixture). -/
def stF : FlowState :=
  { st1c with disk := ["a.out"], run_stages := [], execs := ["S"] }

/-- Environment with an explicit override for the stage-produced artifact
`x` (fixture). -/
def env2 : Env := { envTriv with overrides := [("x", some (.str "x.f"))] }

/-- The `dep_paths` of a constructed flow, when construction succeeded. -/
def initDepPaths : InitRes → Option (List (String × Option PathVal))
  | .ok st => some st.dep_paths
  | _ => none

/-- Environment with caching enabled and an oracle that reports every file
unchanged (fixture). -/
def env3 : Env := { envTriv with cacheEnabled := true }

/-- Stage `B`, consuming required take `x` and producing `y` (fixture). -/
def stB3 : Stage := { name := "B", takes := [⟨"x", "req"⟩], produces := [⟨"y", "req"⟩] }

/-- Flow state about to build `y`: `x` and `y` resolved and on disk, `B`
flagged to run as a planning precaution (fixture). -/
def st3 : FlowState :=
  { stEmpty with
    disk := ["x.f", "y.f"],
    dep_paths := [("x", some (.str "x.f")), ("y", some (.str "y.f"))],
    run_stages := ["B"], os_map := [("y", stB3)] }

/-- The state after building the takes of `B` in the fixture of `st3`:
only the recorded baseline for `x.f` changed (fixture). -/
def st3u : FlowState := { st3 with cacheUpd := [("x.f", "B")] }

/-- Stage `D`, consuming the required take `w` that nothing provides, and
producing `d` (fixture). -/
def stD : Stage := { name := "D", takes := [⟨"w", "req"⟩], produces := [⟨"d", "req"⟩] }

/-- Flow state in which `d` is provided by the unreachable stage `D`
(fixture). -/
def stD0 : FlowState := { stEmpty with os_map := [("d", stD)] }

/-- The state resolution of `d` ends in for the fixture of `stD0`:
rebuild counters initialised, the absent `w` injected into `D`'s value
overrides, the unreachable diagnostic emitted, nothing else touched
(fixture). -/
def stD1 : FlowState :=
  { stD0 with
    deps_rebuilds := [("d", 0), ("w", 0)],
    value_overrides := [(("D", ":w"), none)],
    msgs := [unreachableMsg "D" "w"] }

/-- Flow state whose Output-Provider Index maps `z` to `C` (fixture). -/
def stZ : FlowState := { stEmpty with os_map := [("z", stC)] }

/-! Theorems about the embedded orchestrator. -/

theorem lookupA_append_some {κ α : Type} [DecidableEq κ] (m l : List (κ × α)) (k : κ) (v : α)
    (h : lookupA m k = some v) : lookupA (m ++ l) k = some v := by
  induction m with
  | nil => simp [lookupA] at h
  | cons kv rest ih =>
    obtain ⟨k', v'⟩ := kv
    simp only [lookupA, List.cons_append] at h ⊢
    by_cases hk : k' = k
    · simpa [hk] using h
    · rw [if_neg hk] at h ⊢; exact ih h

theorem lookupA_append_cases {κ α : Type} [DecidableEq κ] (m : List (κ × α)) (k0 k : κ)
    (v0 v : α) (h : lookupA (m ++ [(k0, v0)]) k = some v) :
    lookupA m k = some v ∨ (lookupA m k = none ∧ k0 = k ∧ v0 = v) := by
  induction m with
  | nil =>
    simp only [List.nil_append, lookupA] at h
    by_cases hk : k0 = k
    · rw [if_pos hk] at h
      exact Or.inr ⟨rfl, hk, (Option.some.injEq _ _).mp h⟩
    · rw [if_neg hk] at h; cases h
  | cons kv rest ih =>
    obtain ⟨k', v'⟩ := kv
    simp only [lookupA, List.cons_append] at h ⊢
    by_cases hk : k' = k
    · rw [if_pos hk] at h ⊢; exact Or.inl h
    · rw [if_neg hk] at h ⊢; exact ih h

theorem lookupA_append_self {κ α : Type} [DecidableEq κ] (m : List (κ × α)) (k : κ) (v : α)
    (h : lookupA m k = none) : lookupA (m ++ [(k, v)]) k = some v := by
  induction m with
  | nil => simp [lookupA]
  | cons kv rest ih =>
    obtain ⟨k', v'⟩ := kv
    simp only [lookupA, List.cons_append] at h ⊢
    by_cases hk : k' = k
    · rw [if_pos hk] at h; cases h
    · rw [if_neg hk] at h ⊢; exact ih h

theorem claimOuts_mono (stage : Stage) :
    ∀ (os : List DepSpec) (m m' : List (String × Stage)),
      claimOuts stage os m = .ok m' →
      ∀ k v, lookupA m k = some v → lookupA m' k = some v := by
  intro os
  induction os with
  | nil =>
    intro m m' h k v hk
    simp only [claimOuts] at h
    cases h; exact hk
  | cons o os ih =>
    intro m m' h k v hk
    simp only [claimOuts] at h
    cases hlk : lookupA m o.name with
    | none =>
      simp only [hlk] at h
      exact ih _ _ h k v (lookupA_append_some _ _ _ _ hk)
    | some s =>
      simp only [hlk] at h
      by_cases hs : s = stage
      · rw [if_pos hs] at h; exact ih _ _ h k v hk
      · rw [if_neg hs] at h; cases h

theorem claimOuts_claims (stage : Stage) :
    ∀ (os : List DepSpec) (m m' : List (String × Stage)),
      claimOuts stage os m = .ok m' →
      ∀ o ∈ os, lookupA m' o.name = some stage := by
  intro os
  induction os with
  | nil => intro m m' _ o ho; cases ho
  | cons o0 os ih =>
    intro m m' h o ho
    simp only [claimOuts] at h
    cases hlk : lookupA m o0.name with
    | none =>
      simp only [hlk] at h
      rcases List.mem_cons.mp ho with rfl | ho'
      · exact claimOuts_mono stage os _ _ h o.name stage (lookupA_append_self _ _ _ hlk)
      · exact ih _ _ h o ho'
    | some s =>
      simp only [hlk] at h
      by_cases hs : s = stage
      · rw [if_pos hs] at h
        rcases List.mem_cons.mp ho with rfl | ho'
        · exact claimOuts_mono stage os _ _ h o.name stage (hs ▸ hlk)
        · exact ih _ _ h o ho'
      · rw [if_neg hs] at h; cases h

theorem buildOsMapAux_mono :
    ∀ (ss : List Stage) (m m' : List (String × Stage)),
      buildOsMapAux ss m = .ok m' →
      ∀ k v, lookupA m k = some v → lookupA m' k = some v := by
  intro ss
  induction ss with
  | nil =>
    intro m m' h k v hk
    simp only [buildOsMapAux] at h
    cases h; exact hk
  | cons s ss ih =>
    intro m m' h k v hk
    simp only [buildOsMapAux] at h
    cases hcl : claimOuts s s.produces m with
    | error e => simp only [hcl] at h; cases h
    | ok m1 =>
      simp only [hcl] at h
      exact ih _ _ h k v (claimOuts_mono s _ _ _ hcl k v hk)

theorem buildOsMapAux_claims :
    ∀ (ss : List Stage) (m m' : List (String × Stage)),
      buildOsMapAux ss m = .ok m' →
      ∀ s ∈ ss, ∀ o ∈ s.produces, lookupA m' o.name = some s := by
  intro ss
  induction ss with
  | nil => intro m m' _ s hs; cases hs
  | cons s0 ss ih =>
    intro m m' h s hs o ho
    simp only [buildOsMapAux] at h
    cases hcl : claimOuts s0 s0.produces m with
    | error e => simp only [hcl] at h; cases h
    | ok m1 =>
      simp only [hcl] at h
      rcases List.mem_cons.mp hs with rfl | hs'
      · exact buildOsMapAux_mono ss _ _ h o.name s
          (claimOuts_claims s _ _ _ hcl o ho)
      · exact ih _ _ h s hs' o ho

/-- Content of a successfully built Output-Provider Index: every declared
output of every configured stage is mapped to that stage. -/
theorem buildOsMap_content (stages : List Stage) (m : List (String × Stage))
    (h : buildOsMap stages = .ok m) :
    ∀ s ∈ stages, ∀ o ∈ s.produces, lookupA m o.name = some s :=
  buildOsMapAux_claims stages [] m h

theorem claimOuts_ok (stages : List Stage)
    (H : ∀ s ∈ stages, ∀ t ∈ stages, ∀ k ∈ stageOuts s, k ∈ stageOuts t → s = t)
    (stage : Stage) (hst : stage ∈ stages) :
    ∀ (os : List DepSpec) (m : List (String × Stage)),
      (∀ o ∈ os, o.name ∈ stageOuts stage) →
      (∀ k s', lookupA m k = some s' → s' ∈ stages ∧ k ∈ stageOuts s') →
      ∃ m', claimOuts stage os m = .ok m' ∧
        (∀ k s', lookupA m' k = some s' → s' ∈ stages ∧ k ∈ stageOuts s') := by
  intro os
  induction os with
  | nil => intro m _ hm; exact ⟨m, rfl, hm⟩
  | cons o os ih =>
    intro m hos hm
    cases hlk : lookupA m o.name with
    | none =>
      have hm1 : ∀ k s', lookupA (m ++ [(o.name, stage)]) k = some s' →
          s' ∈ stages ∧ k ∈ stageOuts s' := by
        intro k s' hk
        rcases lookupA_append_cases _ _ _ _ _ hk with h1 | ⟨_, hkk, hvv⟩
        · exact hm _ _ h1
        · subst hkk; subst hvv
          exact ⟨hst, hos o (List.mem_cons_self o os)⟩
      obtain ⟨m', hcl, hm'⟩ := ih (m ++ [(o.name, stage)])
        (fun o' ho' => hos o' (List.mem_cons_of_mem _ ho')) hm1
      refine ⟨m', ?_, hm'⟩
      simp only [claimOuts, hlk]
      exact hcl
    | some s =>
      obtain ⟨hsS, hkouts⟩ := hm _ _ hlk
      have hseq : s = stage :=
        H s hsS stage hst o.name hkouts (hos o (List.mem_cons_self o os))
      obtain ⟨m', hcl, hm'⟩ := ih m (fun o' ho' => hos o' (List.mem_cons_of_mem _ ho')) hm
      refine ⟨m', ?_, hm'⟩
      simp only [claimOuts, hlk, if_pos hseq]
      exact hcl

theorem buildOsMapAux_ok (stages : List Stage)
    (H : ∀ s ∈ stages, ∀ t ∈ stages, ∀ k ∈ stageOuts s, k ∈ stageOuts t → s = t) :
    ∀ (ss : List Stage) (m : List (String × Stage)),
      (∀ s ∈ ss, s ∈ stages) →
      (∀ k s', lookupA m k = some s' → s' ∈ stages ∧ k ∈ stageOuts s') →
      ∃ m', buildOsMapAux ss m = .ok m' ∧
        (∀ k s', lookupA m' k = some s' → s' ∈ stages ∧ k ∈ stageOuts s') := by
  intro ss
  induction ss with
  | nil => intro m _ hm; exact ⟨m, rfl, hm⟩
  | cons s ss ih =>
    intro m hss hm
    obtain ⟨m1, hcl, hm1⟩ := claimOuts_ok stages H s (hss s (List.mem_cons_self s ss))
      s.produces m (fun o ho => List.mem_map_of_mem _ ho) hm
    obtain ⟨m', hb, hm'⟩ := ih m1 (fun t ht => hss t (List.mem_cons_of_mem _ ht)) hm1
    refine ⟨m', ?_, hm'⟩
    simp only [buildOsMapAux, hcl]
    exact hb

/-- C4: for every stage list in which each output name is claimed by at
most one stage, construction succeeds in building the Output-Provider
Index; and whenever two distinct configured stages declare the same output
name, construction raises the duplicate-provider error — `flowInit` ends
in `dupProvider` for every environment, fuel and target, so before any
resolution or execution. -/
theorem os_map_unique_provider :
    ∀ stages : List Stage,
      ((∀ s ∈ stages, ∀ t ∈ stages, ∀ k ∈ stageOuts s, k ∈ stageOuts t → s = t) →
        ∃ m, buildOsMap stages = .ok m) ∧
      (∀ s ∈ stages, ∀ t ∈ stages, s ≠ t → ∀ k, k ∈ stageOuts s → k ∈ stageOuts t →
        ∀ (env : Env) (disk : List String) (fuel : Nat) (target : String),
          ∃ e, flowInit env disk fuel target stages = .dupProvider e) := by
  intro stages
  constructor
  · intro H
    obtain ⟨m, hb, _⟩ := buildOsMapAux_ok stages H stages [] (fun s hs => hs)
      (by intro k s' h; simp [lookupA] at h)
    exact ⟨m, hb⟩
  · intro s hs t ht hne k hks hkt env disk fuel target
    cases hb : buildOsMap stages with
    | ok m =>
      exfalso
      obtain ⟨o1, ho1, hn1⟩ := List.mem_map.mp hks
      obtain ⟨o2, ho2, hn2⟩ := List.mem_map.mp hkt
      have e1 := buildOsMap_content stages m hb s hs o1 ho1
      have e2 := buildOsMap_content stages m hb t ht o2 ho2
      rw [hn1] at e1
      rw [hn2] at e2
      rw [e1] at e2
      exact hne (Option.some_inj.mp e2)
    | error e =>
      refine ⟨e, ?_⟩
      simp [flowInit, hb]

/-- C4 witness: with a single stage `A` producing `x` construction
succeeds; adding a second stage `B` that also produces `x` makes
construction end in the duplicate-provider error. -/
theorem os_map_unique_provider_witness :
    (∃ m, buildOsMap [stA] = .ok m) ∧
    (∃ e, flowInit envTriv [] 1 "t" [stA, stB] = .dupProvider e) := by
  constructor
  · exact (os_map_unique_provider [stA]).1 (by decide)
  · exact (os_map_unique_provider [stA, stB]).2 stA (by decide) stB (by decide)
      (by decide) "x" (by decide) (by decide) envTriv [] 1 "t"

/-- C10: the duplicate-provider check fails only across distinct stages;
under unique ownership across distinct stages — which permits one stage
declaring the same output name more than once in its own produces —
construction succeeds and the Output-Provider Index maps every declared
output name to its declaring stage. -/
theorem os_map_intra_stage_duplicate_ok :
    ∀ stages : List Stage,
      (∀ s ∈ stages, ∀ t ∈ stages, ∀ k ∈ stageOuts s, k ∈ stageOuts t → s = t) →
      ∃ m, buildOsMap stages = .ok m ∧
        ∀ s ∈ stages, ∀ o ∈ s.produces, lookupA m o.name = some s := by
  intro stages H
  obtain ⟨m, hb, _⟩ := buildOsMapAux_ok stages H stages [] (fun s hs => hs)
    (by intro k s' h; simp [lookupA] at h)
  exact ⟨m, hb, buildOsMap_content stages m hb⟩

/-- C10 witness: stage `C` declares its output `z` twice in its own
produces; construction succeeds and maps `z` to `C`. -/
theorem os_map_intra_stage_duplicate_ok_witness :
    ∃ m, buildOsMap [stC] = .ok m ∧
      ∀ s ∈ [stC], ∀ o ∈ s.produces, lookupA m o.name = some s :=
  os_map_intra_stage_duplicate_ok [stC] (by decide)

/-- C5: the staleness status-update helper, on a list or a name-keyed
mapping Path-Set, records a new baseline for only the first element
(recursively) and then returns — its result coincides with the result on
the first member alone, so the baselines of all subsequent members are
left unchanged. -/
theorem update_statuses_only_first_member :
    ∀ (upd : String → String → Bool) (p : PathVal) (rest : List PathVal)
      (k : String) (drest : List (String × PathVal)) (c : String),
      p_update_dep_statuses upd (.list (p :: rest)) c = p_update_dep_statuses upd p c ∧
      p_update_dep_statuses upd (.dict ((k, p) :: drest)) c = p_update_dep_statuses upd p c ∧
      p_update_dep_statuses upd (.list (p :: rest)) c
        = p_update_dep_statuses upd (.list [p]) c ∧
      p_update_dep_statuses upd (.dict ((k, p) :: drest)) c
        = p_update_dep_statuses upd (.dict [(k, p)]) c := by
  intro upd p rest k drest c
  exact ⟨rfl, rfl, rfl, rfl⟩

/-- C6, counterexample: the differ check `p_dep_differ`, applied to a value
of invalid type, does not abort — it returns the ordinary result `false`. -/
theorem dep_differ_invalid_type_returns_false :
    p_dep_differ [] (fun _ _ => "same") PathVal.other "consumer" = false := rfl

/-- C6, amended: the existence check and the status-update helper abort
with an error on a value whose type is not a single path, a list, or a
mapping; the differ check instead returns the ordinary result `false` for
such a value. -/
theorem pathset_helpers_invalid_type :
    ∀ (disk : List String) (gs : String → String → String)
      (upd : String → String → Bool) (c : String),
      p_req_exists disk .other = none ∧
      p_update_dep_statuses upd .other c = none ∧
      p_dep_differ disk gs .other c = false := by
  intro disk gs upd c
  exact ⟨rfl, rfl, rfl⟩

theorem buildTakes_acc (env : Env) (h : env.cacheEnabled = false)
    (recur : String → FlowState → BRes) (provider : Stage) :
    ∀ (ts : List DepSpec) (acc : Bool) (st : FlowState) (b : Bool) (st' : FlowState),
      buildTakes recur env provider ts acc st = .tdone b st' → b = acc := by
  intro ts
  induction ts with
  | nil =>
    intro acc st b st' hb
    simp only [buildTakes] at hb
    cases hb; rfl
  | cons t ts ih =>
    intro acc st b st' hb
    simp only [buildTakes] at hb
    cases hr : recur t.name st with
    | err e =>
      simp only [hr] at hb
      cases hb
    | ret rb st1 =>
      simp only [hr] at hb
      cases rb with
      | false =>
        rw [if_neg Bool.false_ne_true] at hb
        by_cases hspec : (t.spec == "req") = true
        · rw [if_pos hspec] at hb
          cases hb
        · rw [if_neg hspec] at hb
          exact ih acc st1 b st' hb
      | true =>
        rw [if_pos rfl] at hb
        have hcf : ¬(env.cacheEnabled = true) := by simp [h]
        rw [if_neg hcf] at hb
        exact ih acc st1 b st' hb

/-- C7: with caching disabled (no Staleness Oracle instance),
`_dep_will_differ` answers `True` for every dependency, and the
`any_dep_differ` flag of `_build_dep` — initialised by the driver to the
value `if cache then False else True` — can only come out of the takes
loop as `True`, so no rebuild is ever short-circuited without a cache. -/
theorem nocache_always_differs :
    (∀ (env : Env) (st : FlowState) (dep : String) (paths : PathVal) (consumer : String),
      env.cacheEnabled = false → dep_will_differ env st dep paths consumer = true) ∧
    (∀ (env : Env) (recur : String → FlowState → BRes) (provider : Stage)
      (ts : List DepSpec) (st st' : FlowState) (b : Bool),
      env.cacheEnabled = false →
      buildTakes recur env provider ts (if env.cacheEnabled then false else true) st
        = .tdone b st' →
      b = true) := by
  constructor
  · intro env st dep paths consumer h
    simp [dep_will_differ, h]
  · intro env recur provider ts st st' b h hb
    rw [h] at hb
    simp only [Bool.false_eq_true, if_false] at hb
    exact buildTakes_acc env h recur provider ts true st b st' hb

/-- C7 witness: in the cacheless environment, the planner's will-differ
decision is `True` for an on-disk take, and building the sole (successful)
take of a stage leaves the any-input-differs flag `True`. -/
theorem nocache_always_differs_witness :
    envTriv.cacheEnabled = false ∧
    dep_will_differ envTriv stEmpty "x" (.str "p") "c" = true ∧
    buildTakes (fun _ s => .ret true s) envTriv stB3 [⟨"x", "req"⟩]
      (if envTriv.cacheEnabled then false else true) stEmpty = .tdone true stEmpty ∧
    (true : Bool) = true := by
  refine ⟨rfl, nocache_always_differs.1 envTriv stEmpty "x" (.str "p") "c" rfl, rfl, ?_⟩
  exact nocache_always_differs.2 envTriv (fun _ s => .ret true s) stB3
    [⟨"x", "req"⟩] stEmpty stEmpty true rfl rfl

theorem lookupA_cons_self {κ α : Type} [DecidableEq κ] (k : κ) (v : α)
    (l : List (κ × α)) : lookupA ((k, v) :: l) k = some v := by
  simp [lookupA]

theorem lookupA_cons_ne {κ α : Type} [DecidableEq κ] (k0 k : κ) (v : α)
    (l : List (κ × α)) (h : k0 ≠ k) : lookupA ((k0, v) :: l) k = lookupA l k := by
  simp [lookupA, h]

theorem lookupA_none_of_not_mem {α : Type} (l : List (String × α)) (k : String)
    (h : k ∉ l.map Prod.fst) : lookupA l k = none := by
  induction l with
  | nil => rfl
  | cons kv rest ih =>
    obtain ⟨k', v⟩ := kv
    simp only [List.map_cons, List.mem_cons] at h
    push_neg at h
    rw [lookupA_cons_ne k' k v rest (fun hh => h.1 hh.symm)]
    exact ih h.2

/-- C2, counterexample: stage `A` claims the artifact `x` as an output,
the explicit override for `x` exists on disk, and yet `x` is seeded into
`dep_paths` — both by the seeding comprehension itself and in the
constructed flow. -/
theorem override_seeding_counterexample :
    "x" ∈ stageOuts stA ∧
    seedDepPaths ["x.f"] env2.overrides = some [("x", some (.str "x.f"))] ∧
    initDepPaths (flowInit env2 ["x.f"] 1 "t" [stA]) = some [("x", some (.str "x.f"))] := by
  exact ⟨by decide, rfl, rfl⟩

/-- C2, amended: during construction an artifact is seeded into
`dep_paths` if and only if its override value is non-`None` and the
overridden Path-Set exists on disk; whether a stage claims the artifact as
an output plays no role. -/
theorem override_seeding_amended :
    ∀ (disk : List String) (ov : List (String × Option PathVal)),
      (ov.map Prod.fst).Nodup →
      ∀ (m : List (String × Option PathVal)) (n : String) (v : PathVal),
        seedDepPaths disk ov = some m →
        (lookupA m n = some (some v) ↔
          lookupA ov n = some (some v) ∧ p_req_exists disk v = some true) := by
  intro disk ov
  induction ov with
  | nil =>
    intro _ m n v hm
    simp only [seedDepPaths] at hm
    cases hm
    simp [lookupA]
  | cons kv rest ih =>
    obtain ⟨n0, p⟩ := kv
    intro hnd m n v hm
    simp only [List.map_cons, List.nodup_cons] at hnd
    obtain ⟨hn0, hndr⟩ := hnd
    cases p with
    | none =>
      simp only [seedDepPaths] at hm
      by_cases hne : n0 = n
      · subst hne
        rw [lookupA_cons_self]
        have hnone := lookupA_none_of_not_mem rest n0 hn0
        constructor
        · intro hl
          obtain ⟨h21, _⟩ := (ih hndr m n0 v hm).mp hl
          rw [hnone] at h21
          cases h21
        · intro hr
          obtain ⟨h1, _⟩ := hr
          simp at h1
      · rw [lookupA_cons_ne n0 n none rest hne]
        exact ih hndr m n v hm
    | some v0 =>
      cases hex : p_req_exists disk v0 with
      | none =>
        simp only [seedDepPaths, hex] at hm
        cases hm
      | some b =>
        cases b with
        | false =>
          simp only [seedDepPaths, hex] at hm
          by_cases hne : n0 = n
          · subst hne
            rw [lookupA_cons_self]
            have hnone := lookupA_none_of_not_mem rest n0 hn0
            constructor
            · intro hl
              obtain ⟨h21, _⟩ := (ih hndr m n0 v hm).mp hl
              rw [hnone] at h21
              cases h21
            · intro hr
              obtain ⟨h1, h2⟩ := hr
              cases h1
              rw [hex] at h2
              cases h2
          · rw [lookupA_cons_ne n0 n (some v0) rest hne]
            exact ih hndr m n v hm
        | true =>
          cases hrest : seedDepPaths disk rest with
          | none =>
            simp only [seedDepPaths, hex, hrest, Option.map] at hm
            cases hm
          | some m1 =>
            simp only [seedDepPaths, hex, hrest, Option.map] at hm
            cases hm
            by_cases hne : n0 = n
            · subst hne
              rw [lookupA_cons_self, lookupA_cons_self]
              constructor
              · intro hl
                cases hl
                exact ⟨rfl, hex⟩
              · intro hr
                obtain ⟨h1, _⟩ := hr
                cases h1
                rfl
            · rw [lookupA_cons_ne n0 n (some v0) m1 hne,
                  lookupA_cons_ne n0 n (some v0) rest hne]
              exact ih hndr m1 n v hrest

/-- C2 amended witness: the override for `x` exists on disk and is seeded;
the override for `y` does not exist and is dropped. -/
theorem override_seeding_amended_witness :
    lookupA [("x", some (PathVal.str "x.f"))] "x" = some (some (.str "x.f")) :=
  (override_seeding_amended ["x.f"]
    [("x", some (.str "x.f")), ("y", some (.str "y.f"))] (by decide)
    [("x", some (.str "x.f"))] "x" (.str "x.f") rfl).mpr ⟨rfl, rfl⟩

theorem voValueStep_os_map (provider : Stage) (outputs : List (String × Option PathVal))
    (o : DepSpec) (st : FlowState) : (voValueStep provider outputs o st).os_map = st.os_map := by
  unfold voValueStep
  cases getDep outputs o.name <;> rfl

theorem lookupA_eraseA {κ α : Type} [DecidableEq κ] (m : List (κ × α)) (k : κ) :
    lookupA (eraseA m k) k = none := by
  induction m with
  | nil => rfl
  | cons kv rest ih =>
    obtain ⟨k', v⟩ := kv
    by_cases hk : k' = k
    · simpa [eraseA, List.filter_cons, hk] using ih
    · simp only [eraseA, List.filter_cons] at ih ⊢
      rw [if_pos (by simp [hk])]
      rw [lookupA_cons_ne k' k v _ hk]
      exact ih

/-- C8: a declared produce absent from the dry-run output mapping is fatal
when its kind is required, or when it is on-demand and the artifact has an
external override; otherwise its entry is removed from the Output-Provider
Index — the loop continues on a state whose `os_map` no longer resolves
that artifact, so later resolution sees no provider rather than an error. -/
theorem verify_outputs_missing_produce :
    ∀ (env : Env) (provider : Stage) (outputs : List (String × Option PathVal))
      (o : DepSpec) (os : List DepSpec) (st : FlowState),
      (lookupA outputs o.name).isNone = true →
      ((o.spec == "req" || (o.spec == "demand" && (lookupA env.overrides o.name).isSome)) = true →
        verifyOuts env provider outputs (o :: os) st = none) ∧
      ((o.spec == "req" || (o.spec == "demand" && (lookupA env.overrides o.name).isSome)) = false →
        (lookupA st.os_map o.name).isSome = true →
        verifyOuts env provider outputs (o :: os) st =
          verifyOuts env provider outputs os
            (voValueStep provider outputs o { st with os_map := eraseA st.os_map o.name }) ∧
        lookupA (eraseA st.os_map o.name) o.name = none ∧
        (voValueStep provider outputs o
          { st with os_map := eraseA st.os_map o.name }).os_map = eraseA st.os_map o.name) := by
  intro env provider outputs o os st habs
  constructor
  · intro hbad
    simp only [verifyOuts, habs, if_pos, if_true, hbad]
  · intro hbad hprov
    cases hm : lookupA st.os_map o.name with
    | none => rw [hm] at hprov; cases hprov
    | some s =>
      refine ⟨?_, lookupA_eraseA st.os_map o.name,
        voValueStep_os_map provider outputs o _⟩
      simp only [verifyOuts, habs, if_true, hbad, Bool.false_eq_true, if_false, hm]

/-- C8 witness: the required produce `z` missing from an empty dry-run
mapping is fatal; the optional produce `z` missing from the mapping is
popped from the Output-Provider Index and resolution continues. -/
theorem verify_outputs_missing_produce_witness :
    verifyOuts envTriv stA [] [⟨"z", "req"⟩] stEmpty = none ∧
    verifyOuts envTriv stC [] [⟨"z", "maybe"⟩] stZ =
      verifyOuts envTriv stC [] []
        (voValueStep stC [] ⟨"z", "maybe"⟩ { stZ with os_map := eraseA stZ.os_map "z" }) ∧
    lookupA (eraseA stZ.os_map "z") "z" = none := by
  have h1 := (verify_outputs_missing_produce envTriv stA [] ⟨"z", "req"⟩ [] stEmpty rfl).1 rfl
  have h2 := (verify_outputs_missing_produce envTriv stC [] ⟨"z", "maybe"⟩ [] stZ rfl).2 rfl rfl
  exact ⟨h1, h2.1, h2.2.1⟩

theorem initRebuild_os_map (st : FlowState) (dep : String) :
    (initRebuild st dep).os_map = st.os_map := by
  unfold initRebuild
  cases lookupA st.deps_rebuilds dep <;> rfl

theorem initRebuild_checked (st : FlowState) (dep : String) :
    (initRebuild st dep).stages_checked = st.stages_checked := by
  unfold initRebuild
  cases lookupA st.deps_rebuilds dep <;> rfl

/-- C9: when the planner's takes loop reaches a required take that has no
truthy Path-Set after recursive resolution, it emits the unreachable
diagnostic and stops, having changed neither `dep_paths` nor
`stages_checked` at that step; and `_resolve_dependencies` then returns
exactly the loop's state — no output of the provider is merged into
`dep_paths`, the provider is not added to `stages_checked`, and no
exception is raised, so resolution of the ancestors continues. -/
theorem unreachable_provider_nonfatal :
    (∀ (env : Env) (recur : String → FlowState → Option FlowState) (provider : Stage)
      (take : DepSpec) (ts : List DepSpec) (st st1 : FlowState),
      recur take.name st = some st1 →
      truthyO (getDep st1.dep_paths take.name) = false →
      take.spec = "req" →
      resolveTakes recur env provider (take :: ts) st =
        .stop (pushMsg (setVO st1 provider.name (":" ++ take.name)
          (getDep st1.dep_paths take.name)) (unreachableMsg provider.name take.name)) ∧
      (pushMsg (setVO st1 provider.name (":" ++ take.name)
        (getDep st1.dep_paths take.name)) (unreachableMsg provider.name take.name)).dep_paths
        = st1.dep_paths ∧
      (pushMsg (setVO st1 provider.name (":" ++ take.name)
        (getDep st1.dep_paths take.name)) (unreachableMsg provider.name take.name)).stages_checked
        = st1.stages_checked) ∧
    (∀ (env : Env) (fuel : Nat) (dep : String) (provider : Stage) (st st1 : FlowState),
      lookupA st.os_map dep = some provider →
      provider.name ∉ st.stages_checked →
      resolveTakes (resolveDeps env fuel) env provider provider.takes (initRebuild st dep)
        = .stop st1 →
      resolveDeps env (fuel + 1) dep st = some st1) := by
  constructor
  · intro env recur provider take ts st st1 hrec hmiss hreq
    refine ⟨?_, rfl, rfl⟩
    simp [resolveTakes, hrec, hmiss, hreq]
  · intro env fuel dep provider st st1 hprov hchk hloop
    have hos : lookupA (initRebuild st dep).os_map dep = some provider := by
      rw [initRebuild_os_map]; exact hprov
    have hchk' : provider.name ∉ (initRebuild st dep).stages_checked := by
      rw [initRebuild_checked]; exact hchk
    simp only [resolveDeps, hos, Option.isNone_some, Bool.and_false,
      Bool.false_eq_true, if_false, if_neg hchk', hloop]

/-- C9 witness: resolving `d`, provided by stage `D` whose required take
`w` is unmet, ends without an exception in exactly the loop's stop state
`stD1`: the unreachable diagnostic is emitted, `D` is absent from
`stages_checked` and none of its outputs entered `dep_paths`. -/
theorem unreachable_provider_nonfatal_witness :
    resolveDeps envTriv 2 "d" stD0 = some stD1 :=
  unreachable_provider_nonfatal.2 envTriv 1 "d" stD stD0 stD1 rfl (by decide) rfl

/-- C3: when the Execution Driver builds an artifact whose provider is
flagged to run, and after building all the provider's takes the
`any_dep_differ` flag accumulated from the Staleness Oracle is `False`
(caching enabled) while the artifact's own Path-Set exists on disk, the
provider's module execution is skipped entirely — the driver returns
`True` with only the skip diagnostic added, executing nothing further. -/
theorem build_short_circuit :
    ∀ (env : Env) (fuel : Nat) (dep : String) (st st1 : FlowState)
      (paths : PathVal) (provider : Stage) (ex : Bool),
      getDep st.dep_paths dep = some paths →
      truthyV paths = true →
      lookupA st.os_map dep = some provider →
      provider.name ∈ st.run_stages →
      env.cacheEnabled = true →
      p_req_exists st.disk paths = some ex →
      buildTakes (buildDep env fuel) env provider provider.takes
        (if env.cacheEnabled then false else true) st = .tdone false st1 →
      p_req_exists st1.disk paths = some true →
      buildDep env (fuel + 1) dep st = .ret true (pushMsg st1 (skipMsg dep)) ∧
      (pushMsg st1 (skipMsg dep)).execs = st1.execs := by
  intro env fuel dep st st1 paths provider ex hp htr hprov hrun hc hex htakes hex2
  rw [hc] at htakes
  rw [if_pos rfl] at htakes
  refine ⟨?_, rfl⟩
  have hrd : decide (provider.name ∈ st.run_stages) = true := decide_eq_true hrun
  simp only [buildDep, hp, truthyO, htr, Bool.not_true, Bool.false_eq_true, if_false,
    hprov, hrd, hex, hc, if_pos rfl, Bool.and_false, htakes, hex2, Bool.not_false,
    Bool.and_true, if_true]

/-- C3 witness: stage `B` (takes `x`, produces `y`) is flagged to run, the
oracle reports `x.f` unchanged, `y.f` exists — building `y` records the
baseline for `x.f`, skips executing `B`, and returns success. -/
theorem build_short_circuit_witness :
    buildDep env3 2 "y" st3 = .ret true (pushMsg st3u (skipMsg "y")) ∧
    (pushMsg st3u (skipMsg "y")).execs = st3u.execs :=
  build_short_circuit env3 1 "y" st3 st3u (.str "y.f") stB3 true rfl rfl rfl
    (by decide) rfl rfl rfl rfl

/-- C1 (code bug): the produce check after module execution tests
`p_req_exists(paths)` — the Path-Set of the dependency being built — for
every required product instead of the product's own Path-Set, and names
the built dependency in the exception.  Stage `S` promises the required
outputs `a` (at `a.out`) and `b` (at `b.out`); executing it creates only
`a.out`.  Building `a` then returns `True` without raising
`DependencyNotProducedException` for `b`, although `b`'s promised file is
still missing from the resulting disk. -/
theorem missing_required_produce_not_raised :
    buildDep env1 1 "a" st1c = .ret true stF ∧
    lookupA st1c.dep_paths "b" = some (some (.str "b.out")) ∧
    "b.out" ∉ stF.disk ∧
    "S" ∈ stF.execs := by
  exact ⟨rfl, rfl, by decide, by decide⟩

end F4PGA
